import Mathlib

/-!
Verification development for the MQTT stress-platform backend
(`app/main.py`): a shallow embedding of its registry, condition
evaluator, scheduler, API handlers and broadcast hub, with theorems
about the specified behaviour.

Conventions of the embedding:
* Python `float` values are modelled as exact fractions (`PyFloat`,
  an integer numerator over a power-of-ten denominator); the model of
  `float()` parsing below covers finite decimal literals.
* Wall-clock timestamps are modelled as integers (`Int`).
* The fallible MQTT publish is modelled by a boolean oracle
  `pubOk : String → Bool` giving, per topic, whether the publish call
  succeeds; a `false` result corresponds to the Python call raising.
* A Python exception escaping a handler or task is modelled with
  `Except`: `.error st` carries the state at the moment of the raise.
-/

namespace StressMqtt

/-- Per-device statistics, mirroring the `DeviceStats` dataclass
(`app/main.py` lines 59-69).  `last_seen` timestamps are `Int`. -/
structure DeviceStats where
  device_id : String
  connected : Bool := false
  last_seen : Option Int := none
  packets_sent : Nat := 0
  packets_received : Nat := 0
  bytes_sent : Nat := 0
  bytes_received : Nat := 0
  last_topic : Option String := none
  last_payload : Option String := none
deriving Repr, DecidableEq

/-- A stored command/rule, mirroring the `CommandDef` dataclass
(`app/main.py` lines 72-88); `created_at` is an `Int` timestamp. -/
structure CommandDef where
  id : String
  name : String
  device_id : String
  topic : String
  payload : String
  qos : Nat := 0
  retained : Bool := false
  trigger_type : String := "manual"
  interval_seconds : Option Nat := none
  condition_topic : Option String := none
  condition_operator : Option String := none
  condition_value : Option String := none
  enabled : Bool := true
  created_at : Int := 0
deriving Repr, DecidableEq

/-- Body of the `/api/publish` request, mirroring `PublishInput`
(`app/main.py` lines 106-111). -/
structure PublishInput where
  device_id : String
  topic : String
  payload : String
  qos : Nat := 0
  retain : Bool := false
deriving Repr, DecidableEq

/-! ## Model of Python `float()` parsing

Restricted to finite decimal literals: an optional sign, digits with an
optional fractional part, and an optional decimal exponent.  Leading or
trailing whitespace, `inf`/`nan` and digit-group underscores are not
modelled; parsed values are exact fractions over a power-of-ten
denominator. -/

/-- An exact decimal value: numerator over a (positive, power-of-ten)
denominator.  Comparisons are by cross-multiplication, so they agree
with the rational value `num / den` (see `toRat_lt` below). -/
structure PyFloat where
  num : Int
  den : Nat
deriving Repr, DecidableEq

/-- The rational value of a parsed decimal. -/
def toRat (x : PyFloat) : Rat := (x.num : Rat) / (x.den : Rat)

/-- `a < b` on decimal values, by cross-multiplication. -/
def pfLt (a b : PyFloat) : Bool := decide (a.num * (b.den : Int) < b.num * (a.den : Int))

/-- `a ≤ b` on decimal values, by cross-multiplication. -/
def pfLe (a b : PyFloat) : Bool := decide (a.num * (b.den : Int) ≤ b.num * (a.den : Int))

/-- `a = b` on decimal values, by cross-multiplication. -/
def pfEq (a b : PyFloat) : Bool := decide (a.num * (b.den : Int) = b.num * (a.den : Int))

/-- Numeric value of a decimal digit character. -/
def digToNat (c : Char) : Nat := c.toNat - '0'.toNat

/-- Consume leading decimal digits, returning the accumulated value,
the number of digits consumed, and the remaining characters. -/
def takeDigits : List Char → Nat → Nat → (Nat × Nat × List Char)
  | [], acc, cnt => (acc, cnt, [])
  | c :: rest, acc, cnt =>
    if c.isDigit then takeDigits rest (acc * 10 + digToNat c) (cnt + 1)
    else (acc, cnt, c :: rest)

/-- Consume an optional leading sign; returns whether it was `-`. -/
def parseSign : List Char → (Bool × List Char)
  | '-' :: rest => (true, rest)
  | '+' :: rest => (false, rest)
  | cs => (false, cs)

/-- Digits with an optional fractional part (`12`, `12.`, `12.5`, `.5`):
returns the digits read as one integer together with the number of
fractional digits (so the value is `n / 10 ^ fracCnt`); fails when no
digit is present on either side of the point. -/
def parseMantissa (cs : List Char) : Option (Nat × Nat × List Char) :=
  let (ip, ic, r1) := takeDigits cs 0 0
  match r1 with
  | '.' :: r2 =>
    let (fp, fc, r3) := takeDigits r2 0 0
    if ic + fc == 0 then none
    else some (ip * 10 ^ fc + fp, fc, r3)
  | _ => if ic == 0 then none else some (ip, 0, r1)

/-- A signed run of digits (used for the exponent); requires at least
one digit. -/
def parseSignedDigits (cs : List Char) : Option (Int × List Char) :=
  let (neg, r1) := parseSign cs
  let (v, c, r2) := takeDigits r1 0 0
  if c == 0 then none else some ((if neg then -(v : Int) else (v : Int)), r2)

/-- An optional exponent part `e`/`E` followed by a signed digit run. -/
def parseExponent : List Char → Option (Int × List Char)
  | 'e' :: rest => parseSignedDigits rest
  | 'E' :: rest => parseSignedDigits rest
  | cs => some (0, cs)

/-- Model of Python `float(s)` on finite decimal literals: `some q`
when the whole string is a valid literal of value `q`, `none` when the
conversion raises `ValueError`. -/
def parseFloat (s : String) : Option PyFloat :=
  let (neg, r1) := parseSign s.data
  match parseMantissa r1 with
  | none => none
  | some (m, fc, r2) =>
    match parseExponent r2 with
    | none => none
    | some (ex, r3) =>
      if r3.isEmpty then
        let sn : Int := if neg then -(m : Int) else (m : Int)
        if 0 ≤ ex then some ⟨sn * (10 : Int) ^ ex.toNat, 10 ^ fc⟩
        else some ⟨sn, 10 ^ (fc + (-ex).toNat)⟩
      else none

/-! ## Condition evaluator (`evaluate_condition`, lines 233-258) -/

/-- `expected in actual`: Python substring test. -/
def strContains (expected actual : String) : Bool :=
  (List.range (actual.data.length + 1)).any
    (fun i => expected.data.isPrefixOf (actual.data.drop i))

/-- Python string `<`: lexicographic comparison by Unicode code point. -/
def strLtB : List Char → List Char → Bool
  | [], [] => false
  | [], _ :: _ => true
  | _ :: _, [] => false
  | a :: as, b :: bs => if a < b then true else if b < a then false else strLtB as bs

/-- The numeric comparison dictionary of `evaluate_condition`
(lines 240-248), applied to `(a_num, e_num)`; `none` models the
`KeyError` on an unknown operator. -/
def numMapping (operator : String) (e a : PyFloat) : Option Bool :=
  if operator == "==" then some (pfEq a e)
  else if operator == "!=" then some (!pfEq a e)
  else if operator == ">" then some (pfLt e a)
  else if operator == "<" then some (pfLt a e)
  else if operator == ">=" then some (pfLe e a)
  else if operator == "<=" then some (pfLe a e)
  else none

/-- The string-comparison dictionary of `evaluate_condition`
(lines 250-258); order comparisons are Python's lexicographic order on
code points, and `a ≥ b ↔ ¬ a < b` since the order is total. -/
def strMapping (operator : String) (expected actual : String) : Option Bool :=
  if operator == "==" then some (actual == expected)
  else if operator == "!=" then some (!(actual == expected))
  else if operator == ">" then some (strLtB expected.data actual.data)
  else if operator == "<" then some (strLtB actual.data expected.data)
  else if operator == ">=" then some (!strLtB actual.data expected.data)
  else if operator == "<=" then some (!strLtB expected.data actual.data)
  else none

/-- `evaluate_condition(operator, expected, actual)` (lines 233-258).
The `try` block fails over to the string dictionary when either
`float()` conversion raises, or when the numeric dictionary lookup
raises `KeyError`; `none` models an exception escaping the function. -/
def evaluate_condition (operator expected actual : String) : Option Bool :=
  if operator == "contains" then some (strContains expected actual)
  else
    match parseFloat actual, parseFloat expected with
    | some a, some e =>
      match numMapping operator e a with
      | some b => some b
      | none => strMapping operator expected actual
    | _, _ => strMapping operator expected actual

/-! ## Events broadcast through the hub -/

/-- WebSocket events broadcast by the backend (payload fields that the
claims do not mention are elided). -/
inductive Event where
  | telemetry (device_id topic payload : String)
  | warning (message : String)
  | command_fired (command_id : String) (reason : Option String)
  | command_created (id : String)
  | published (topic payload : String)
  | subscription_added (topic : String)
deriving Repr, DecidableEq

/-! ## The device registry (`DeviceRegistry`, lines 114-138)

Python dicts are modelled as association lists in insertion order
(Python 3.7+ dicts preserve insertion order); the subscription set as a
list of distinct topics. -/

/-- First-match association-list lookup (Python `dict` access). -/
def alookup {α : Type} : List (String × α) → String → Option α
  | [], _ => none
  | (k, v) :: rest, key => if k == key then some v else alookup rest key

/-- Replace the first binding of `key`, or append one (Python
`dict[key] = v`). -/
def aupdate {α : Type} : List (String × α) → String → α → List (String × α)
  | [], key, v => [(key, v)]
  | (k, w) :: rest, key, v =>
    if k == key then (k, v) :: rest else (k, w) :: aupdate rest key v

/-- The mutable state owned by `DeviceRegistry` (lines 114-119). -/
structure RegistryState where
  devices : List (String × DeviceStats) := []
  commands : List (String × CommandDef) := []
  subscriptions : List String := []
deriving Repr, DecidableEq

/-- `DeviceRegistry.ensure_device` (lines 121-124): look up the device,
lazily inserting a zero-valued entry when absent. -/
def ensure_device (st : RegistryState) (device_id : String) : RegistryState × DeviceStats :=
  match alookup st.devices device_id with
  | some d => (st, d)
  | none =>
    let d : DeviceStats := { device_id := device_id }
    ({ st with devices := st.devices ++ [(device_id, d)] }, d)

/-- Store a device record under its id. -/
def setDevice (st : RegistryState) (device_id : String) (d : DeviceStats) : RegistryState :=
  { st with devices := aupdate st.devices device_id d }

/-- The sender-side bookkeeping shared by `manual_publish` (lines
362-366), `execute_command` (lines 389-393) and the scheduler's
interval branch (lines 276-280): ensure the device, bump its sent
counters and refresh `last_seen`. -/
def record_sent (now : Int) (device_id payload : String) (st : RegistryState) : RegistryState :=
  let (st1, dev) := ensure_device st device_id
  setDevice st1 device_id
    { dev with
      packets_sent := dev.packets_sent + 1
      bytes_sent := dev.bytes_sent + payload.utf8ByteSize
      last_seen := some now }

/-- Device id extraction in `metrics_subscriber` (lines 215-216):
segment 1 of the topic split on `/`, else `"unknown"`. -/
def device_from_topic (topic : String) : String :=
  match topic.splitOn "/" with
  | _ :: d :: _ => d
  | _ => "unknown"

/-- Registry update for one delivered message in `metrics_subscriber`
(lines 210-224): `nbytes` is the length of the raw payload bytes. -/
def ingest_message (now : Int) (topic payload : String) (nbytes : Nat)
    (st : RegistryState) : RegistryState :=
  let id := device_from_topic topic
  let (st1, dev) := ensure_device st id
  setDevice st1 id
    { dev with
      connected := true
      last_seen := some now
      last_topic := some topic
      last_payload := some payload
      packets_received := dev.packets_received + 1
      bytes_received := dev.bytes_received + nbytes }

/-! ## API handlers (lines 351-395)

Each handler returns the registry state after the call, the events it
broadcast, and whether it returned normally (`false` models an
exception propagating to the web framework: state and events then
reflect what had happened before the raise). -/

/-- `POST /api/subscriptions/{topic}` (lines 351-356). -/
def add_subscription (topic : String) (st : RegistryState) :
    RegistryState × List Event × Bool :=
  let st1 :=
    if st.subscriptions.contains topic then st
    else { st with subscriptions := st.subscriptions ++ [topic] }
  (st1, [Event.subscription_added topic], true)

/-- `POST /api/publish` (lines 359-368): publish first; only on
success run the device bookkeeping and broadcast `published`. -/
def manual_publish (pubOk : String → Bool) (now : Int) (data : PublishInput)
    (st : RegistryState) : RegistryState × List Event × Bool :=
  if pubOk data.topic then
    (record_sent now data.device_id data.payload st,
     [Event.published data.topic data.payload], true)
  else (st, [], false)

/-- `POST /api/commands` (lines 371-379): conflict on an existing id
(HTTP 409) before any mutation, else insert and broadcast. -/
def create_command (cmd : CommandDef) (st : RegistryState) :
    RegistryState × List Event × Bool :=
  if (alookup st.commands cmd.id).isSome then (st, [], false)
  else ({ st with commands := st.commands ++ [(cmd.id, cmd)] },
        [Event.command_created cmd.id], true)

/-- `POST /api/commands/{id}/execute` (lines 382-395): 404 on an
unknown id; otherwise publish, then bookkeeping and broadcast. -/
def execute_command (pubOk : String → Bool) (now : Int) (command_id : String)
    (st : RegistryState) : RegistryState × List Event × Bool :=
  match alookup st.commands command_id with
  | none => (st, [], false)
  | some cmd =>
    if pubOk cmd.topic then
      (record_sent now cmd.device_id cmd.payload st,
       [Event.command_fired command_id (some "manual")], true)
    else (st, [], false)

/-! ## The rule scheduler (`command_scheduler`, lines 261-295)

One tick iterates over the commands of the snapshot taken at the start
of the tick, threading the live registry state, the scheduler-private
`last_run` map and the log of broadcast events and successful
publishes.  There is no `try`/`except` around the loop body in the
source, so a raising publish is modelled by `Except.error` carrying
the state at the raise, which short-circuits the rest of the tick. -/

/-- Scheduler-visible state: the registry plus the scheduler-private
`last_run` map (line 262) and the observable logs. -/
structure SchedState where
  reg : RegistryState := {}
  last_run : List (String × Int) := []
  events : List Event := []
  published : List (String × String) := []
deriving Repr, DecidableEq

/-- Python truthiness of `cmd.interval_seconds` (line 272): `None` and
`0` are falsy. -/
def optNatTruthy : Option Nat → Bool
  | some k => k != 0
  | none => false

/-- Python truthiness of an optional string (line 284): `None` and the
empty string are falsy. -/
def optStrTruthy : Option String → Bool
  | some s => s != ""
  | none => false

/-- The interval branch of the scheduler body (lines 272-282): publish
first (a raise aborts with the state unchanged), then bump the target
device, record `last_run` and broadcast `command_fired`. -/
def intervalStep (pubOk : String → Bool) (now : Int) (st : SchedState)
    (cmd : CommandDef) : Except SchedState SchedState :=
  if cmd.trigger_type == "interval" && optNatTruthy cmd.interval_seconds then
    if (cmd.interval_seconds.getD 0 : Int) ≤
        now - (alookup st.last_run cmd.id).getD 0 then
      if pubOk cmd.topic then
        Except.ok
          { st with
            reg := record_sent now cmd.device_id cmd.payload st.reg
            last_run := aupdate st.last_run cmd.id now
            events := st.events ++ [Event.command_fired cmd.id none]
            published := st.published ++ [(cmd.topic, cmd.payload)] }
      else Except.error st
    else Except.ok st
  else Except.ok st

/-- The condition branch of the scheduler body (lines 284-294): under
the registry lock, skip unless the target device exists, its last
topic equals the rule's condition topic and it has a payload; then
evaluate the condition and, when true, publish (a raise aborts with
the state unchanged), bump the device in place and broadcast. -/
def conditionStep (pubOk : String → Bool) (now : Int) (st : SchedState)
    (cmd : CommandDef) : Except SchedState SchedState :=
  if cmd.trigger_type == "condition" && optStrTruthy cmd.condition_topic &&
      optStrTruthy cmd.condition_operator && cmd.condition_value.isSome then
    match alookup st.reg.devices cmd.device_id with
    | none => Except.ok st
    | some dev =>
      if dev.last_topic != cmd.condition_topic || dev.last_payload == none then
        Except.ok st
      else
        match evaluate_condition (cmd.condition_operator.getD "")
            (cmd.condition_value.getD "") (dev.last_payload.getD "") with
        | none => Except.error st
        | some false => Except.ok st
        | some true =>
          if pubOk cmd.topic then
            Except.ok
              { st with
                reg := setDevice st.reg cmd.device_id
                  { dev with
                    packets_sent := dev.packets_sent + 1
                    bytes_sent := dev.bytes_sent + cmd.payload.utf8ByteSize
                    last_seen := some now }
                events := st.events ++ [Event.command_fired cmd.id (some "condition")]
                published := st.published ++ [(cmd.topic, cmd.payload)] }
          else Except.error st
  else Except.ok st

/-- The scheduler body for one command (lines 267-294): skip disabled
and manual rules, then the interval branch followed by the condition
branch (two independent `if`s in the source). -/
def processCmd (pubOk : String → Bool) (now : Int) (st : SchedState)
    (cmd : CommandDef) : Except SchedState SchedState :=
  if !cmd.enabled || cmd.trigger_type == "manual" then Except.ok st
  else do
    let st1 ← intervalStep pubOk now st cmd
    conditionStep pubOk now st1 cmd

/-- Iterate the scheduler body over a list of commands; an uncaught
exception short-circuits the remaining commands of the tick. -/
def runTick (pubOk : String → Bool) (now : Int) (st : SchedState) :
    List CommandDef → Except SchedState SchedState
  | [] => Except.ok st
  | c :: rest =>
    match processCmd pubOk now st c with
    | Except.ok st1 => runTick pubOk now st1 rest
    | Except.error st1 => Except.error st1

/-- One full scheduler tick (lines 264-294): snapshot the command list
and run the body over it. -/
def schedTick (pubOk : String → Bool) (now : Int) (st : SchedState) :
    Except SchedState SchedState :=
  runTick pubOk now st (st.reg.commands.map Prod.snd)

/-- The scheduler loop over a list of tick times; an exception escaping
one tick terminates the whole task (there is no handler in
`command_scheduler`), so no later tick runs. -/
def schedRun (pubOk : String → Bool) : List Int → SchedState → Except SchedState SchedState
  | [], st => Except.ok st
  | t :: ts, st =>
    match schedTick pubOk t st with
    | Except.ok st1 => schedRun pubOk ts st1
    | Except.error st1 => Except.error st1

/-- The tick times at which the scheduler fired at least one command:
ticks are run in order and a tick that fired is one whose event log
grew (used to state the interval-cadence scenario). -/
def firedTicks (pubOk : String → Bool) : List Int → SchedState → List Int
  | [], _ => []
  | t :: ts, st =>
    match schedTick pubOk t st with
    | Except.error _ => []
    | Except.ok st1 =>
      (if st.events.length < st1.events.length then [t] else []) ++
        firedTicks pubOk ts st1

/-! ## The broadcast hub (`WsHub`, lines 141-165)

Observers are identified by numbers; `sendOk w` says whether sending
to observer `w` succeeds on this pass (a `false` models
`ws.send_text` raising). -/

/-- `WsHub.broadcast` (lines 156-165): send to every registered
connection in order, collecting the ones whose send raised, then
remove each stale connection (first occurrence, as `list.remove`
does).  Returns the observers that received the event and the
connection list afterwards; no error escapes. -/
def broadcast (sendOk : Nat → Bool) (conns : List Nat) : List Nat × List Nat :=
  let delivered := conns.filter sendOk
  let stale := conns.filter (fun w => !sendOk w)
  (delivered, stale.foldl List.erase conns)

/-! ## API-boundary validation (`CommandCreate`, lines 90-103)

Pydantic enforces exactly the declared per-field constraints: `qos`
within 0-2, `trigger_type` matching its pattern, `interval_seconds`
at least 1 when present, `condition_operator` matching its pattern
when present.  No cross-field (trigger-kind dependent) requirement
appears in the model. -/

/-- A rule-creation request before validation (all constrained fields
as raw values). -/
structure CommandCreateInput where
  id : String
  name : String
  device_id : String
  topic : String
  payload : String
  qos : Int := 0
  retained : Bool := false
  trigger_type : String := "manual"
  interval_seconds : Option Int := none
  condition_topic : Option String := none
  condition_operator : Option String := none
  condition_value : Option String := none
  enabled : Bool := true
deriving Repr, DecidableEq

/-- The `trigger_type` pattern `^(manual|interval|condition)$`. -/
def validTriggerType (s : String) : Bool :=
  s == "manual" || s == "interval" || s == "condition"

/-- The `condition_operator` pattern `^(==|!=|>|<|>=|<=|contains)$`. -/
def validOperator (s : String) : Bool :=
  s == "==" || s == "!=" || s == ">" || s == "<" || s == ">=" || s == "<=" ||
    s == "contains"

/-- Pydantic validation of a `CommandCreate` body (lines 90-103):
true iff every declared per-field constraint holds. -/
def commandCreateValid (c : CommandCreateInput) : Bool :=
  (0 ≤ c.qos && c.qos ≤ 2) && validTriggerType c.trigger_type &&
    (match c.interval_seconds with
     | none => true
     | some k => 1 ≤ k) &&
    (match c.condition_operator with
     | none => true
     | some op => validOperator op)

/-- The `CommandDef` built from a validated request
(`CommandDef(**data.model_dump())`, line 373). -/
def toCommandDef (now : Int) (c : CommandCreateInput) : CommandDef :=
  { id := c.id
    name := c.name
    device_id := c.device_id
    topic := c.topic
    payload := c.payload
    qos := c.qos.toNat
    retained := c.retained
    trigger_type := c.trigger_type
    interval_seconds := c.interval_seconds.map Int.toNat
    condition_topic := c.condition_topic
    condition_operator := c.condition_operator
    condition_value := c.condition_value
    enabled := c.enabled
    created_at := now }

/-! ## Lock/IO traces

A static model of which locks are held when each network call
happens, read off the `async with` blocks and `await`s of the source.
`acquireReg`/`releaseReg` bracket `registry.lock`, `acquireHub`/
`releaseHub` bracket `hub.lock`; `netPublish` is an MQTT publish and
`netSend` a WebSocket send; `memWrite` is an in-memory mutation. -/

/-- Atomic actions of the lock/IO trace model. -/
inductive Action where
  | acquireReg
  | releaseReg
  | acquireHub
  | releaseHub
  | netPublish
  | netSend
  | memWrite
deriving Repr, DecidableEq

/-- `WsHub.broadcast` to `n` observers (lines 156-165): every send
happens inside `async with self.lock`. -/
def wsHubBroadcastTrace (n : Nat) : List Action :=
  [Action.acquireHub] ++ List.replicate n Action.netSend ++ [Action.releaseHub]

/-- `manual_publish` (lines 359-368): publish, then the locked
mutation, then the broadcast. -/
def manualPublishTrace (n : Nat) : List Action :=
  [Action.netPublish, Action.acquireReg, Action.memWrite, Action.releaseReg] ++
    wsHubBroadcastTrace n

/-- `execute_command` (lines 382-395): locked lookup, publish, locked
mutation, broadcast. -/
def executeCommandTrace (n : Nat) : List Action :=
  [Action.acquireReg, Action.releaseReg, Action.netPublish, Action.acquireReg,
    Action.memWrite, Action.releaseReg] ++ wsHubBroadcastTrace n

/-- One delivered message in `metrics_subscriber` (lines 217-225):
locked mutation, then broadcast. -/
def ingestTrace (n : Nat) : List Action :=
  [Action.acquireReg, Action.memWrite, Action.releaseReg] ++ wsHubBroadcastTrace n

/-- A firing interval rule in the scheduler (lines 275-282): publish,
locked mutation, broadcast. -/
def intervalFireTrace (n : Nat) : List Action :=
  [Action.netPublish, Action.acquireReg, Action.memWrite, Action.releaseReg] ++
    wsHubBroadcastTrace n

/-- A firing condition rule in the scheduler (lines 285-294): the
publish, the mutation AND the broadcast all happen inside
`async with registry.lock`. -/
def conditionFireTrace (n : Nat) : List Action :=
  [Action.acquireReg, Action.netPublish, Action.memWrite] ++
    wsHubBroadcastTrace n ++ [Action.releaseReg]

/-- `add_subscription` (lines 351-356): locked mutation, broadcast. -/
def addSubscriptionTrace (n : Nat) : List Action :=
  [Action.acquireReg, Action.memWrite, Action.releaseReg] ++ wsHubBroadcastTrace n

/-- `create_command` (lines 371-379): locked check-and-insert,
broadcast. -/
def createCommandTrace (n : Nat) : List Action :=
  [Action.acquireReg, Action.memWrite, Action.releaseReg] ++ wsHubBroadcastTrace n

/-- Does some network action occur while the Registry lock is held?
(`r` is the current hold depth.) -/
def regHeldNet : List Action → Nat → Bool
  | [], _ => false
  | Action.acquireReg :: rest, r => regHeldNet rest (r + 1)
  | Action.releaseReg :: rest, r => regHeldNet rest (r - 1)
  | Action.netPublish :: rest, r => decide (0 < r) || regHeldNet rest r
  | Action.netSend :: rest, r => decide (0 < r) || regHeldNet rest r
  | _ :: rest, r => regHeldNet rest r

/-- Does some network action occur while the Hub lock is held? -/
def hubHeldNet : List Action → Nat → Bool
  | [], _ => false
  | Action.acquireHub :: rest, h => hubHeldNet rest (h + 1)
  | Action.releaseHub :: rest, h => hubHeldNet rest (h - 1)
  | Action.netPublish :: rest, h => decide (0 < h) || hubHeldNet rest h
  | Action.netSend :: rest, h => decide (0 < h) || hubHeldNet rest h
  | _ :: rest, h => hubHeldNet rest h

/-- Does some network action occur while ANY lock is held? -/
def anyHeldNet (tr : List Action) : Bool := regHeldNet tr 0 || hubHeldNet tr 0

/-- Are the two locks ever held simultaneously? -/
def bothHeld : List Action → Nat → Nat → Bool
  | [], _, _ => false
  | Action.acquireReg :: rest, r, h => decide (0 < h) || bothHeld rest (r + 1) h
  | Action.releaseReg :: rest, r, h => bothHeld rest (r - 1) h
  | Action.acquireHub :: rest, r, h => decide (0 < r) || bothHeld rest r (h + 1)
  | Action.releaseHub :: rest, r, h => bothHeld rest r (h - 1)
  | _ :: rest, r, h => bothHeld rest r h

/-! ## Operation sequences over the registry (for the counter
invariant)

Every registry mutation the backend performs, as one inductive of
operations; `applyOp` is the corresponding state transformer.  A
scheduler tick is included whole (with its publish oracle and its
private `last_run` map), covering both its normal and its aborting
outcome. -/

/-- One registry-mutating operation of the backend. -/
inductive Op where
  | ingest (now : Int) (topic payload : String) (nbytes : Nat)
  | manualPub (pubOk : String → Bool) (now : Int) (data : PublishInput)
  | execCmd (pubOk : String → Bool) (now : Int) (command_id : String)
  | createCmd (cmd : CommandDef)
  | addSub (topic : String)
  | tick (pubOk : String → Bool) (now : Int) (last_run : List (String × Int))

/-- The registry state after one operation (an aborted scheduler tick
leaves the registry as it was at the raise). -/
def applyOp (st : RegistryState) : Op → RegistryState
  | Op.ingest now topic payload nbytes => ingest_message now topic payload nbytes st
  | Op.manualPub pubOk now data => (manual_publish pubOk now data st).1
  | Op.execCmd pubOk now command_id => (execute_command pubOk now command_id st).1
  | Op.createCmd cmd => (create_command cmd st).1
  | Op.addSub topic => (add_subscription topic st).1
  | Op.tick pubOk now last_run =>
    match schedTick pubOk now { reg := st, last_run := last_run } with
    | Except.ok s => s.reg
    | Except.error s => s.reg

/-- The registry state after a sequence of operations. -/
def applyOps (st : RegistryState) : List Op → RegistryState
  | [] => st
  | op :: rest => applyOps (applyOp st op) rest

/-- The four packet/byte counters of `a` are at most those of `b`. -/
def countersLE (a b : DeviceStats) : Prop :=
  a.packets_sent ≤ b.packets_sent ∧ a.packets_received ≤ b.packets_received ∧
    a.bytes_sent ≤ b.bytes_sent ∧ a.bytes_received ≤ b.bytes_received

/-- Every device present in `st` is present in `st'` with counters at
least as large. -/
def MonoReg (st st' : RegistryState) : Prop :=
  ∀ id s, alookup st.devices id = some s →
    ∃ s', alookup st'.devices id = some s' ∧ countersLE s s'

/-- The state carried by either outcome of a scheduler step (`.ok` is
the state after a normal step, `.error` the state at the raise). -/
def exceptState : Except SchedState SchedState → SchedState
  | Except.ok s => s
  | Except.error s => s

/-- Did the computation finish without an exception? -/
def exceptIsOk {ε α : Type} : Except ε α → Bool
  | Except.ok _ => true
  | Except.error _ => false

/-! ## Concrete instances used in scenarios, witnesses and
counterexamples -/

/-- Interval command used in concrete scheduler scenarios. -/
def cmdA : CommandDef :=
  { id := "a", name := "A", device_id := "dev1", topic := "ta", payload := "pa",
    trigger_type := "interval", interval_seconds := some 1 }

/-- A second interval command, published on a different topic. -/
def cmdB : CommandDef :=
  { id := "b", name := "B", device_id := "dev2", topic := "tb", payload := "pb",
    trigger_type := "interval", interval_seconds := some 1 }

/-- Registry holding the two interval commands. -/
def regAB : RegistryState := { commands := [("a", cmdA), ("b", cmdB)] }

/-- Publish oracle that fails exactly on `cmdA`'s topic. -/
def pubFailA : String → Bool := fun t => t != "ta"

/-- Publish oracle that always succeeds. -/
def pubAll : String → Bool := fun _ => true

/-- Interval command with a five-second cadence. -/
def cmd5 : CommandDef :=
  { id := "i5", name := "I5", device_id := "dev5", topic := "t5", payload := "p5",
    trigger_type := "interval", interval_seconds := some 5 }

/-- Registry holding only the five-second interval command. -/
def reg5 : RegistryState := { commands := [("i5", cmd5)] }

/-- A sample rule used in registry witnesses. -/
def cmdC1 : CommandDef :=
  { id := "c1", name := "n", device_id := "d", topic := "t", payload := "p" }

/-- Registry already holding `cmdC1`. -/
def stC1 : RegistryState := { commands := [("c1", cmdC1)] }

/-- Condition command watching `sensors/dev1/temp` for a value above
20. -/
def cmdCond : CommandDef :=
  { id := "cd", name := "CD", device_id := "dev1", topic := "out", payload := "go",
    trigger_type := "condition", condition_topic := some "sensors/dev1/temp",
    condition_operator := some ">", condition_value := some "20" }

/-- A device whose last observation satisfies `cmdCond`. -/
def devHot : DeviceStats :=
  { device_id := "dev1", connected := true, last_seen := some 50,
    last_topic := some "sensors/dev1/temp", last_payload := some "21.5" }

/-- Scheduler state with `cmdCond` due against `devHot`. -/
def stCond : SchedState :=
  { reg := { devices := [("dev1", devHot)], commands := [("cd", cmdCond)] } }

/-- A rule-creation request with `trigger_type = "interval"` but no
`interval_seconds`. -/
def badInterval : CommandCreateInput :=
  { id := "no-int", name := "n", device_id := "d", topic := "t", payload := "p",
    trigger_type := "interval" }

/-- A rule-creation request with `trigger_type = "condition"` but none
of the condition fields. -/
def badCondition : CommandCreateInput :=
  { id := "no-cond", name := "n", device_id := "d", topic := "t", payload := "p",
    trigger_type := "condition" }

/-! ## Spec-level comparison semantics (for the refinement statement
of the condition evaluator) -/

/-- The spec's numeric comparison semantics, over the rational values
of the parsed numbers (only called with one of the six order/equality
operators; the final branch is `<=`). -/
def ratCmp (operator : String) (e a : Rat) : Bool :=
  if operator == "==" then decide (a = e)
  else if operator == "!=" then decide (a ≠ e)
  else if operator == ">" then decide (e < a)
  else if operator == "<" then decide (a < e)
  else if operator == ">=" then decide (e ≤ a)
  else decide (a ≤ e)

/-- The spec's raw-string comparison semantics: exact equality for
`==`/`!=`, lexicographic order (Mathlib's `List.Lex` on code points)
for the four order operators (the final branch is `<=`). -/
def strCmpSpec (operator expected actual : String) : Bool :=
  if operator == "==" then decide (actual = expected)
  else if operator == "!=" then decide (actual ≠ expected)
  else if operator == ">" then decide (List.Lex (· < ·) expected.data actual.data)
  else if operator == "<" then decide (List.Lex (· < ·) actual.data expected.data)
  else if operator == ">=" then !decide (List.Lex (· < ·) actual.data expected.data)
  else !decide (List.Lex (· < ·) expected.data actual.data)

lemma strLtB_iff : ∀ as bs : List Char, strLtB as bs = true ↔ List.Lex (· < ·) as bs
  | [], [] => by
    simp only [strLtB, Bool.false_eq_true, false_iff]
    exact List.Lex.not_nil_right _ _
  | [], _ :: _ => by
    simp only [strLtB, true_iff]
    exact List.Lex.nil
  | _ :: _, [] => by
    simp only [strLtB, Bool.false_eq_true, false_iff]
    exact List.Lex.not_nil_right _ _
  | a :: as, b :: bs => by
    simp only [strLtB]
    by_cases hab : a < b
    · simpa [hab] using List.Lex.rel hab
    · by_cases hba : b < a
      · simp only [hab, if_false, hba, if_true, Bool.false_eq_true, false_iff]
        intro hlex
        cases hlex with
        | rel h => exact hab h
        | cons h => exact lt_irrefl _ hba
      · have hEq : a = b := le_antisymm (le_of_not_lt hba) (le_of_not_lt hab)
        subst hEq
        rw [if_neg hab, if_neg hab, strLtB_iff as bs]
        constructor
        · exact fun h => List.Lex.cons h
        · intro hlex
          cases hlex with
          | rel h => exact absurd h hab
          | cons h => exact h

lemma strLtB_eq (as bs : List Char) :
    strLtB as bs = decide (List.Lex (· < ·) as bs) := by
  by_cases h : List.Lex (· < ·) as bs
  · rw [(strLtB_iff as bs).mpr h, decide_eq_true h]
  · rw [decide_eq_false h]
    cases hs : strLtB as bs
    · rfl
    · exact absurd ((strLtB_iff as bs).mp hs) h

lemma beq_eq_decideEq (a b : String) : (a == b) = decide (a = b) := by
  by_cases h : a = b <;> simp [h]

lemma parseFloat_den_pos {s : String} {x : PyFloat}
    (h : parseFloat s = some x) : 0 < x.den := by
  unfold parseFloat at h
  repeat' split at h
  all_goals first
    | exact Option.noConfusion h
    | (cases Option.some.inj h; exact pow_pos (by norm_num) _)

lemma toRat_lt {a b : PyFloat} (ha : 0 < a.den) (hb : 0 < b.den) :
    toRat a < toRat b ↔ a.num * (b.den : Int) < b.num * (a.den : Int) := by
  unfold toRat
  rw [div_lt_div_iff (by exact_mod_cast ha) (by exact_mod_cast hb)]
  constructor <;> intro h <;> exact_mod_cast h

lemma toRat_le {a b : PyFloat} (ha : 0 < a.den) (hb : 0 < b.den) :
    toRat a ≤ toRat b ↔ a.num * (b.den : Int) ≤ b.num * (a.den : Int) := by
  unfold toRat
  rw [div_le_div_iff (by exact_mod_cast ha) (by exact_mod_cast hb)]
  constructor <;> intro h <;> exact_mod_cast h

lemma toRat_eq {a b : PyFloat} (ha : 0 < a.den) (hb : 0 < b.den) :
    toRat a = toRat b ↔ a.num * (b.den : Int) = b.num * (a.den : Int) := by
  unfold toRat
  rw [div_eq_div_iff (by exact_mod_cast ha.ne') (by exact_mod_cast hb.ne')]
  constructor <;> intro h <;> exact_mod_cast h

lemma pfLt_eq {a b : PyFloat} (ha : 0 < a.den) (hb : 0 < b.den) :
    pfLt a b = decide (toRat a < toRat b) := by
  unfold pfLt
  rw [decide_eq_decide]
  exact (toRat_lt ha hb).symm

lemma pfLe_eq {a b : PyFloat} (ha : 0 < a.den) (hb : 0 < b.den) :
    pfLe a b = decide (toRat a ≤ toRat b) := by
  unfold pfLe
  rw [decide_eq_decide]
  exact (toRat_le ha hb).symm

lemma pfEq_eq {a b : PyFloat} (ha : 0 < a.den) (hb : 0 < b.den) :
    pfEq a b = decide (toRat a = toRat b) := by
  unfold pfEq
  rw [decide_eq_decide]
  exact (toRat_eq ha hb).symm

/-- Claim C1: for each of the six order/equality operators,
`evaluate_condition` first tries to parse both strings as numbers and
compares their numeric values when both parse; when either fails to
parse it falls back to the same-operator comparison on the raw strings
(lexicographic for the order operators, exact equality for `==`/`!=`);
and `evaluate(">","5","10")`, `evaluate(">","abc","abd")` and
`evaluate("==","5","5.0")` are all true. -/
theorem evaluate_condition_numeric_then_string (op expected actual : String)
    (hop : op = "==" ∨ op = "!=" ∨ op = ">" ∨ op = "<" ∨ op = ">=" ∨ op = "<=") :
    (∀ a e, parseFloat actual = some a → parseFloat expected = some e →
        evaluate_condition op expected actual = some (ratCmp op (toRat e) (toRat a)))
    ∧ ((parseFloat actual = none ∨ parseFloat expected = none) →
        evaluate_condition op expected actual = some (strCmpSpec op expected actual))
    ∧ evaluate_condition ">" "5" "10" = some true
    ∧ evaluate_condition ">" "abc" "abd" = some true
    ∧ evaluate_condition "==" "5" "5.0" = some true := by
  refine ⟨?_, ?_, by decide, by decide, by decide⟩
  · intro a e hpa hpe
    have hda := parseFloat_den_pos hpa
    have hde := parseFloat_den_pos hpe
    rcases hop with h | h | h | h | h | h <;> subst h <;>
      simp [evaluate_condition, hpa, hpe, numMapping, ratCmp,
        pfLt_eq hda hde, pfLt_eq hde hda, pfLe_eq hda hde, pfLe_eq hde hda,
        pfEq_eq hda hde, pfEq_eq hde hda]
  · intro hnone
    have hfall : evaluate_condition op expected actual =
        strMapping op expected actual := by
      rcases hnone with h | h
      · rcases hop with ho | ho | ho | ho | ho | ho <;> subst ho <;>
          simp [evaluate_condition, h]
      · cases hpa : parseFloat actual with
        | none =>
          rcases hop with ho | ho | ho | ho | ho | ho <;> subst ho <;>
            simp [evaluate_condition, hpa]
        | some a =>
          rcases hop with ho | ho | ho | ho | ho | ho <;> subst ho <;>
            simp [evaluate_condition, hpa, h]
    rw [hfall]
    rcases hop with h | h | h | h | h | h <;> subst h <;>
      simp [strMapping, strCmpSpec, strLtB_eq, decide_not, beq_eq_decideEq]

/-- Witness for the claim-C1 theorem: both branches exercised at
concrete inputs. -/
theorem evaluate_condition_numeric_then_string_witness :
    evaluate_condition ">" "5" "10" = some true ∧
      evaluate_condition ">" "abc" "abd" = some true :=
  ⟨(evaluate_condition_numeric_then_string ">" "5" "10"
      (Or.inr (Or.inr (Or.inl rfl)))).2.2.1,
   (evaluate_condition_numeric_then_string ">" "abc" "abd"
      (Or.inr (Or.inr (Or.inl rfl)))).2.2.2.1⟩

/-! ## Association-list lemmas -/

lemma alookup_append {α : Type} (l₁ l₂ : List (String × α)) (k : String) :
    alookup (l₁ ++ l₂) k =
      match alookup l₁ k with
      | some v => some v
      | none => alookup l₂ k := by
  induction l₁ with
  | nil => simp [alookup]
  | cons p rest ih =>
    by_cases h : p.1 == k
    · simp [alookup, h]
    · simp [alookup, h, ih]

lemma alookup_aupdate_self {α : Type} (l : List (String × α)) (k : String) (v : α) :
    alookup (aupdate l k v) k = some v := by
  induction l with
  | nil => simp [aupdate, alookup]
  | cons p rest ih =>
    by_cases h : p.1 == k
    · simp [aupdate, alookup, h]
    · simp [aupdate, alookup, h, ih]

lemma alookup_aupdate_ne {α : Type} (l : List (String × α)) (k k' : String)
    (v : α) (h : k' ≠ k) :
    alookup (aupdate l k v) k' = alookup l k' := by
  induction l with
  | nil =>
    have hne : ¬ (k == k') := by simpa using fun e => h e.symm
    simp [aupdate, alookup, hne]
  | cons p rest ih =>
    obtain ⟨pk, pv⟩ := p
    by_cases hp : pk == k
    · have hp' : pk = k := by simpa using hp
      subst hp'
      have hne : ¬ (pk == k') := by simpa using fun e => h e.symm
      simp [aupdate, alookup, hne]
    · simp [aupdate, hp, alookup, ih]

/-! ## Claim C6: duplicate rule ids -/

/-- Claim C6: creating a rule whose id is already present is rejected
with a conflict and leaves the registry (devices, commands and
subscriptions) exactly unchanged; creating one with a fresh id inserts
it and reports success. -/
theorem create_command_id_unique (st : RegistryState) (cmd : CommandDef) :
    ((alookup st.commands cmd.id).isSome →
        create_command cmd st = (st, [], false))
    ∧ (alookup st.commands cmd.id = none →
        create_command cmd st =
          ({ st with commands := st.commands ++ [(cmd.id, cmd)] },
            [Event.command_created cmd.id], true)) := by
  constructor
  · intro h
    simp [create_command, h]
  · intro h
    simp [create_command, h]

/-- Witness for the claim-C6 theorem: both the conflict branch and the
insertion branch at concrete inputs. -/
theorem create_command_id_unique_witness :
    create_command cmdC1 stC1 = (stC1, [], false) ∧
    create_command cmdC1 {} =
      ({ commands := [("c1", cmdC1)] }, [Event.command_created "c1"], true) :=
  ⟨(create_command_id_unique stC1 cmdC1).1 (by decide),
   by
    have h := (create_command_id_unique {} cmdC1).2 (by decide)
    simpa [cmdC1] using h⟩

/-! ## Claim C10: publish failure leaves the registry untouched -/

/-- Claim C10: in both the manual-publish handler and the execute-rule
handler, a raising publish leaves the registry state exactly as it was
(no device created, no counter or `last_seen` change) and broadcasts
nothing: bookkeeping and broadcast happen only after a successful
publish. -/
theorem publish_failure_state_unchanged (pubOk : String → Bool)
    (now : Int) (st : RegistryState) :
    (∀ data : PublishInput, pubOk data.topic = false →
        manual_publish pubOk now data st = (st, [], false))
    ∧ (∀ command_id cmd, alookup st.commands command_id = some cmd →
        pubOk cmd.topic = false →
        execute_command pubOk now command_id st = (st, [], false)) := by
  constructor
  · intro data h
    simp [manual_publish, h]
  · intro command_id cmd hlk h
    simp [execute_command, hlk, h]

/-- Witness for the claim-C10 theorem at concrete inputs (a publish
oracle that always fails). -/
theorem publish_failure_state_unchanged_witness :
    manual_publish (fun _ => false) 7
        { device_id := "d", topic := "t", payload := "p" } stC1 =
      (stC1, [], false) ∧
    execute_command (fun _ => false) 7 "c1" stC1 = (stC1, [], false) :=
  ⟨(publish_failure_state_unchanged (fun _ => false) 7 stC1).1
      { device_id := "d", topic := "t", payload := "p" } rfl,
   (publish_failure_state_unchanged (fun _ => false) 7 stC1).2 "c1" cmdC1
      (by decide) rfl⟩

/-! ## Claim C2: a failing publish and the rest of the tick

The source has no `try`/`except` in `command_scheduler`: a raising
publish escapes the `for` loop and the `while` loop, so the claim that
the other rules of the tick are still evaluated fails. -/

/-- Counterexample to claim C2 as stated: with two due interval rules
and a publish that fails on the first, the tick aborts before the
second rule is ever evaluated (nothing is published, no `last_run`
entry appears for it) and the scheduler loop never reaches the next
tick — the run ends in an error with the state untouched, never in a
normal continuation. -/
theorem scheduler_tick_abort_counterexample :
    exceptIsOk (schedRun pubFailA [100, 101] { reg := regAB }) = false ∧
    exceptState (schedRun pubFailA [100, 101] { reg := regAB }) =
      { reg := regAB } ∧
    ∀ st', schedRun pubFailA [100, 101] { reg := regAB } ≠ Except.ok st' := by
  refine ⟨by decide, by decide, ?_⟩
  intro st' hok
  have h1 : exceptIsOk (schedRun pubFailA [100, 101] { reg := regAB }) = false := by
    decide
  rw [hok] at h1
  exact Bool.noConfusion h1

/-- Claim C2 (amended): when an enabled, due interval rule's publish
raises, the exception propagates uncaught: the tick aborts with the
state unchanged — regardless of how many rules remain after it, none
is evaluated — and an erroring tick ends the scheduler loop, so no
later tick runs. -/
theorem scheduler_publish_failure_aborts (pubOk : String → Bool) (now : Int)
    (st : SchedState) (c : CommandDef)
    (hen : c.enabled = true) (htt : c.trigger_type = "interval")
    (hk : optNatTruthy c.interval_seconds = true)
    (hdue : (c.interval_seconds.getD 0 : Int) ≤
      now - (alookup st.last_run c.id).getD 0)
    (hpub : pubOk c.topic = false) :
    (∀ rest, runTick pubOk now st (c :: rest) = Except.error st)
    ∧ ∀ ts s e, schedTick pubOk now s = Except.error e →
        schedRun pubOk (now :: ts) s = Except.error e := by
  constructor
  · intro rest
    have hI : intervalStep pubOk now st c = Except.error st := by
      simp [intervalStep, htt, hk, hdue, hpub]
    have hstep : processCmd pubOk now st c = Except.error st := by
      unfold processCmd
      rw [if_neg (by simp [hen, htt]), hI]
      rfl
    simp [runTick, hstep]
  · intro ts s e herr
    simp [schedRun, herr]

/-- Witness for the amended claim-C2 theorem at a concrete due rule
whose publish fails. -/
theorem scheduler_publish_failure_aborts_witness :
    runTick pubFailA 100 { reg := regAB } [cmdA, cmdB] =
      Except.error { reg := regAB } :=
  ((scheduler_publish_failure_aborts pubFailA 100 { reg := regAB } cmdA
      rfl rfl rfl (by decide) rfl).1 [cmdB])

/-! ## Claim C3: interval-rule cadence -/

/-- Claim C3: an enabled interval rule whose publish succeeds fires at
a tick (publishes, bumps the target device's sent counters and
`last_seen`, records `last_run := now`, broadcasts `command_fired`)
exactly when `now − last_fired ≥ interval_seconds`, a never-fired rule
counting as `last_fired = 0`; in particular with `interval_seconds = 5`
and ticks at 100..110 it fires at 100 (its first eligible tick) and at
105, never at the ticks in between (110, five seconds after 105, is
eligible again). -/
theorem interval_rule_cadence (pubOk : String → Bool) (now : Int)
    (st : SchedState) (c : CommandDef) (k : Nat)
    (hen : c.enabled = true) (htt : c.trigger_type = "interval")
    (hk : c.interval_seconds = some k) (hk0 : k ≠ 0)
    (hpub : pubOk c.topic = true) :
    ((k : Int) ≤ now - (alookup st.last_run c.id).getD 0 →
      processCmd pubOk now st c = Except.ok
        { st with
          reg := record_sent now c.device_id c.payload st.reg
          last_run := aupdate st.last_run c.id now
          events := st.events ++ [Event.command_fired c.id none]
          published := st.published ++ [(c.topic, c.payload)] })
    ∧ (¬ ((k : Int) ≤ now - (alookup st.last_run c.id).getD 0) →
      processCmd pubOk now st c = Except.ok st)
    ∧ firedTicks pubAll [100, 101, 102, 103, 104, 105, 106, 107, 108, 109, 110]
        { reg := reg5 } = [100, 105, 110] := by
  have hguard : ¬ ((!c.enabled || c.trigger_type == "manual") = true) := by
    simp [hen, htt]
  refine ⟨?_, ?_, by decide⟩
  · intro hdue
    have hI : intervalStep pubOk now st c = Except.ok
        { st with
          reg := record_sent now c.device_id c.payload st.reg
          last_run := aupdate st.last_run c.id now
          events := st.events ++ [Event.command_fired c.id none]
          published := st.published ++ [(c.topic, c.payload)] } := by
      simp [intervalStep, htt, hk, optNatTruthy, hk0, hdue, hpub]
    unfold processCmd
    rw [if_neg hguard, hI]
    show conditionStep pubOk now _ c = _
    simp [conditionStep, htt]
  · intro hnot
    have hI : intervalStep pubOk now st c = Except.ok st := by
      simp [intervalStep, htt, hk, optNatTruthy, hk0, hnot]
    unfold processCmd
    rw [if_neg hguard, hI]
    show conditionStep pubOk now st c = _
    simp [conditionStep, htt]

/-- Witness for the claim-C3 theorem: the five-second rule at its
first tick on the concrete scenario state. -/
theorem interval_rule_cadence_witness :
    processCmd pubAll 100 { reg := reg5 } cmd5 = Except.ok
      { reg := record_sent 100 cmd5.device_id cmd5.payload reg5
        last_run := aupdate [] cmd5.id 100
        events := [Event.command_fired cmd5.id none]
        published := [(cmd5.topic, cmd5.payload)] } :=
  (interval_rule_cadence pubAll 100 { reg := reg5 } cmd5 5
      rfl rfl rfl (by decide) rfl).1 (by decide)

/-! ## Claim C4: condition-rule evaluation and absence of dedup -/

/-- Claim C4: at each tick an enabled condition rule is skipped when
the target device is unknown, its last topic differs from the rule's
condition topic, or it has no payload; otherwise the evaluator runs on
(operator, condition value, last payload) and on true the rule fires —
leaving `last_run` untouched, so it fires again on the next tick on
which the condition still holds. -/
theorem condition_rule_no_dedup (pubOk : String → Bool) (now : Int)
    (st : SchedState) (c : CommandDef) (ct op v : String)
    (hen : c.enabled = true) (htt : c.trigger_type = "condition")
    (hct : c.condition_topic = some ct) (hct0 : ct ≠ "")
    (hop : c.condition_operator = some op) (hop0 : op ≠ "")
    (hv : c.condition_value = some v) :
    (alookup st.reg.devices c.device_id = none →
      processCmd pubOk now st c = Except.ok st)
    ∧ (∀ dev, alookup st.reg.devices c.device_id = some dev →
      dev.last_topic ≠ some ct →
      processCmd pubOk now st c = Except.ok st)
    ∧ (∀ dev, alookup st.reg.devices c.device_id = some dev →
      dev.last_payload = none →
      processCmd pubOk now st c = Except.ok st)
    ∧ (∀ dev p, alookup st.reg.devices c.device_id = some dev →
      dev.last_topic = some ct → dev.last_payload = some p →
      evaluate_condition op v p = some false →
      processCmd pubOk now st c = Except.ok st)
    ∧ (∀ dev p, alookup st.reg.devices c.device_id = some dev →
      dev.last_topic = some ct → dev.last_payload = some p →
      evaluate_condition op v p = some true → pubOk c.topic = true →
      processCmd pubOk now st c = Except.ok
        { st with
          reg := setDevice st.reg c.device_id
            { dev with
              packets_sent := dev.packets_sent + 1
              bytes_sent := dev.bytes_sent + c.payload.utf8ByteSize
              last_seen := some now }
          events := st.events ++ [Event.command_fired c.id (some "condition")]
          published := st.published ++ [(c.topic, c.payload)] })
    ∧ (∀ dev p now2, alookup st.reg.devices c.device_id = some dev →
      dev.last_topic = some ct → dev.last_payload = some p →
      evaluate_condition op v p = some true → pubOk c.topic = true →
      processCmd pubOk now2
          { st with
            reg := setDevice st.reg c.device_id
              { dev with
                packets_sent := dev.packets_sent + 1
                bytes_sent := dev.bytes_sent + c.payload.utf8ByteSize
                last_seen := some now }
            events := st.events ++ [Event.command_fired c.id (some "condition")]
            published := st.published ++ [(c.topic, c.payload)] } c =
        Except.ok
          { st with
            reg := setDevice
              (setDevice st.reg c.device_id
                { dev with
                  packets_sent := dev.packets_sent + 1
                  bytes_sent := dev.bytes_sent + c.payload.utf8ByteSize
                  last_seen := some now }) c.device_id
              { dev with
                packets_sent := dev.packets_sent + 1 + 1
                bytes_sent := dev.bytes_sent + c.payload.utf8ByteSize +
                  c.payload.utf8ByteSize
                last_seen := some now2 }
            events := (st.events ++ [Event.command_fired c.id (some "condition")]) ++
              [Event.command_fired c.id (some "condition")]
            published := (st.published ++ [(c.topic, c.payload)]) ++
              [(c.topic, c.payload)] }) := by
  have hguard : ¬ ((!c.enabled || c.trigger_type == "manual") = true) := by
    simp [hen, htt]
  have hstep : ∀ now' (s : SchedState),
      processCmd pubOk now' s c = conditionStep pubOk now' s c := by
    intro now' s
    unfold processCmd
    rw [if_neg hguard]
    have hI' : intervalStep pubOk now' s c = Except.ok s := by
      simp [intervalStep, htt]
    rw [hI']
    rfl
  refine ⟨?_, ?_, ?_, ?_, ?_, ?_⟩
  · intro hnone
    rw [hstep]
    simp [conditionStep, htt, hct, hct0, hop, hop0, hv, optStrTruthy, hnone]
  · intro dev hlk hne
    rw [hstep]
    simp [conditionStep, htt, hct, hct0, hop, hop0, hv, optStrTruthy, hlk,
      bne_iff_ne, hne]
  · intro dev hlk hpayload
    rw [hstep]
    by_cases hlt : dev.last_topic = some ct
    · simp [conditionStep, htt, hct, hct0, hop, hop0, hv, optStrTruthy, hlk,
        hlt, hpayload]
    · simp [conditionStep, htt, hct, hct0, hop, hop0, hv, optStrTruthy, hlk,
        bne_iff_ne, hlt]
  · intro dev p hlk hlt hpayload heval
    rw [hstep]
    simp [conditionStep, htt, hct, hct0, hop, hop0, hv, optStrTruthy, hlk,
      hlt, hpayload, heval]
  · intro dev p hlk hlt hpayload heval hpub
    rw [hstep]
    simp [conditionStep, htt, hct, hct0, hop, hop0, hv, optStrTruthy, hlk,
      hlt, hpayload, heval, hpub]
  · intro dev p now2 hlk hlt hpayload heval hpub
    obtain ⟨did, conn, ls, ps, pr, bs, br, lt, lp⟩ := dev
    dsimp only at hlk hlt hpayload
    subst hlt
    subst hpayload
    rw [hstep]
    have hlk2 := alookup_aupdate_self st.reg.devices c.device_id
      ⟨did, conn, some now, ps + 1, pr, bs + c.payload.utf8ByteSize, br,
        some ct, some p⟩
    simp [conditionStep, htt, hct, hct0, hop, hop0, hv, optStrTruthy, hlk2,
      heval, hpub, setDevice]

/-- Witness for the claim-C4 theorem: the concrete condition rule
fires against the device whose payload satisfies it. -/
theorem condition_rule_no_dedup_witness :
    processCmd pubAll 60 stCond cmdCond = Except.ok
      { stCond with
        reg := setDevice stCond.reg cmdCond.device_id
          { devHot with
            packets_sent := devHot.packets_sent + 1
            bytes_sent := devHot.bytes_sent + cmdCond.payload.utf8ByteSize
            last_seen := some 60 }
        events := stCond.events ++ [Event.command_fired cmdCond.id (some "condition")]
        published := stCond.published ++ [(cmdCond.topic, cmdCond.payload)] } :=
  (condition_rule_no_dedup pubAll 60 stCond cmdCond "sensors/dev1/temp" ">" "20"
      rfl rfl rfl (by decide) rfl (by decide) rfl).2.2.2.2.1 devHot "21.5"
    rfl rfl rfl (by decide) rfl

/-! ## Claim C5: API-boundary validation of trigger-kind fields

`CommandCreate` (lines 90-103) declares only per-field constraints;
no validator ties `interval_seconds` to `trigger_type = "interval"`
or the condition fields to `trigger_type = "condition"`. -/

/-- Counterexample to claim C5 as stated: a request with
`trigger_type = "interval"` and no `interval_seconds`, and a request
with `trigger_type = "condition"` and none of the condition fields,
both pass validation, and rule creation then mutates the registry
(the rule is inserted and success reported) instead of rejecting. -/
theorem commandCreate_missing_fields_accepted :
    commandCreateValid badInterval = true ∧
    (create_command (toCommandDef 0 badInterval) {}).2.2 = true ∧
    (create_command (toCommandDef 0 badInterval) {}).1.commands =
      [("no-int", toCommandDef 0 badInterval)] ∧
    commandCreateValid badCondition = true ∧
    (create_command (toCommandDef 0 badCondition) {}).2.2 = true ∧
    (create_command (toCommandDef 0 badCondition) {}).1.commands =
      [("no-cond", toCommandDef 0 badCondition)] := by
  refine ⟨by decide, by decide, by decide, by decide, by decide, by decide⟩

/-- Claim C5 (amended): validation enforces only the declared
per-field constraints, so an interval rule without interval seconds
and a condition rule without its condition fields are accepted at the
API boundary (and inserted); the scheduler then skips such rules on
every tick, leaving the state unchanged. -/
theorem commandCreate_fieldwise_validation (c : CommandCreateInput)
    (cmd : CommandDef) :
    (c.trigger_type = "interval" → c.interval_seconds = none →
      0 ≤ c.qos → c.qos ≤ 2 → c.condition_operator = none →
      commandCreateValid c = true)
    ∧ (c.trigger_type = "condition" → c.condition_topic = none →
      c.condition_operator = none → c.condition_value = none →
      0 ≤ c.qos → c.qos ≤ 2 → c.interval_seconds = none →
      commandCreateValid c = true)
    ∧ (∀ pubOk now st, cmd.trigger_type = "interval" →
      cmd.interval_seconds = none →
      processCmd pubOk now st cmd = Except.ok st)
    ∧ (∀ pubOk now st, cmd.trigger_type = "condition" →
      cmd.condition_topic = none →
      processCmd pubOk now st cmd = Except.ok st) := by
  refine ⟨?_, ?_, ?_, ?_⟩
  · intro htt hint hq0 hq2 hco
    simp [commandCreateValid, htt, hint, hq0, hq2, hco, validTriggerType]
  · intro htt hco1 hco2 hco3 hq0 hq2 hint
    simp [commandCreateValid, htt, hint, hq0, hq2, hco2, validTriggerType]
  · intro pubOk now st htt hint
    by_cases hg : (!cmd.enabled || cmd.trigger_type == "manual") = true
    · unfold processCmd
      rw [if_pos hg]
    · unfold processCmd
      rw [if_neg hg]
      have hI : intervalStep pubOk now st cmd = Except.ok st := by
        simp [intervalStep, htt, hint, optNatTruthy]
      rw [hI]
      show conditionStep pubOk now st cmd = Except.ok st
      simp [conditionStep, htt]
  · intro pubOk now st htt hct
    by_cases hg : (!cmd.enabled || cmd.trigger_type == "manual") = true
    · unfold processCmd
      rw [if_pos hg]
    · unfold processCmd
      rw [if_neg hg]
      have hI : intervalStep pubOk now st cmd = Except.ok st := by
        simp [intervalStep, htt]
      rw [hI]
      show conditionStep pubOk now st cmd = Except.ok st
      simp [conditionStep, htt, hct, optStrTruthy]

/-- Witness for the amended claim-C5 theorem: the field-incomplete
interval request passes validation and its rule is skipped by a
tick. -/
theorem commandCreate_fieldwise_validation_witness :
    commandCreateValid badInterval = true ∧
    processCmd pubAll 5 { reg := {} } (toCommandDef 0 badInterval) =
      Except.ok { reg := {} } :=
  ⟨(commandCreate_fieldwise_validation badInterval
      (toCommandDef 0 badInterval)).1 rfl rfl (by decide) (by decide) rfl,
   (commandCreate_fieldwise_validation badInterval
      (toCommandDef 0 badInterval)).2.2.1 pubAll 5 { reg := {} } rfl rfl⟩

/-! ## Claim C8: broadcast pruning of a failed observer -/

lemma filter_erase_of_unique (p : Nat → Bool) :
    ∀ (conns : List Nat) (w : Nat), conns.count w = 1 → p w = false →
      (∀ x ∈ conns, x ≠ w → p x = true) →
      conns.filter p = conns.erase w ∧ conns.filter (fun x => !p x) = [w] := by
  intro conns
  induction conns with
  | nil => intro w hc; simp at hc
  | cons a rest ih =>
    intro w hc hpw hrest
    by_cases haw : a = w
    · subst haw
      have h0 : rest.count a = 0 := by
        have hcc := hc
        rw [List.count_cons] at hcc
        simpa using hcc
      have hnotin : a ∉ rest := by
        intro hmem
        have := List.count_pos_iff.mpr hmem
        omega
      have hall : ∀ x ∈ rest, p x = true := by
        intro x hx
        exact hrest x (List.mem_cons_of_mem _ hx)
          (fun hxw => hnotin (hxw ▸ hx))
      constructor
      · rw [List.filter_cons_of_neg (by simp [hpw]), List.erase_cons_head]
        exact List.filter_eq_self.mpr hall
      · rw [List.filter_cons_of_pos (by simp [hpw])]
        have : rest.filter (fun x => !p x) = [] := by
          rw [List.filter_eq_nil_iff]
          intro x hx
          simp [hall x hx]
        rw [this]
    · have hc' : rest.count w = 1 := by
        have hcc := hc
        rw [List.count_cons] at hcc
        simpa [haw, Ne.symm haw] using hcc
      have hpa : p a = true := hrest a (List.mem_cons_self a rest) haw
      have hrest' : ∀ x ∈ rest, x ≠ w → p x = true := fun x hx hxw =>
        hrest x (List.mem_cons_of_mem _ hx) hxw
      obtain ⟨ihf, ihnf⟩ := ih w hc' hpw hrest'
      constructor
      · rw [List.filter_cons_of_pos hpa, ihf,
          List.erase_cons_tail (by simp [haw])]
      · rw [List.filter_cons_of_neg (by simp [hpa]), ihnf]

/-- Claim C8: when exactly one of the registered observers failson a
broadcast pass, every other observer still receives the event, the
failed one is removed from the connection list after the pass (no
error reaching the broadcaster — `broadcast` is total), and it is
absent from the set at the next broadcast (in particular it receives
nothing then). -/
theorem broadcast_prunes_failed_observer (sendOk : Nat → Bool)
    (conns : List Nat) (w : Nat)
    (hcount : conns.count w = 1) (hfail : sendOk w = false)
    (hrest : ∀ x ∈ conns, x ≠ w → sendOk x = true) :
    (broadcast sendOk conns).1 = conns.erase w ∧
    (broadcast sendOk conns).2 = conns.erase w ∧
    w ∉ (broadcast sendOk conns).2 ∧
    ∀ sendOk2 : Nat → Bool,
      w ∉ (broadcast sendOk2 (broadcast sendOk conns).2).1 := by
  obtain ⟨hf, hnf⟩ := filter_erase_of_unique sendOk conns w hcount hfail hrest
  have h2 : (broadcast sendOk conns).2 = conns.erase w := by
    show (conns.filter (fun x => !sendOk x)).foldl List.erase conns = conns.erase w
    rw [hnf]
    rfl
  have hw : w ∉ conns.erase w := by
    intro hmem
    have hpos := List.count_pos_iff.mpr hmem
    have herase := List.count_erase_self w conns
    omega
  refine ⟨hf, h2, ?_, ?_⟩
  · rw [h2]
    exact hw
  · intro sendOk2 hmem
    have hmem2 : w ∈ (broadcast sendOk conns).2 := List.mem_of_mem_filter hmem
    rw [h2] at hmem2
    exact hw hmem2

/-- Witness for the claim-C8 theorem: observers 1,2,3 with observer 2
failing. -/
theorem broadcast_prunes_failed_observer_witness :
    (broadcast (fun x => x != 2) [1, 2, 3]).1 = [1, 3] ∧
    (broadcast (fun x => x != 2) [1, 2, 3]).2 = [1, 3] := by
  have h := broadcast_prunes_failed_observer (fun x => x != 2) [1, 2, 3] 2
    (by decide) (by decide) (by decide)
  exact ⟨h.1.trans (by decide), h.2.1.trans (by decide)⟩

/-! ## Claim C9: locks held across network calls

The condition branch of the scheduler performs its publish, its
mutation AND its broadcast inside `async with registry.lock`, and
`WsHub.broadcast` sends inside `async with self.lock`, so the claimed
discipline fails. -/

lemma regHeldNet_replicate (n r : Nat) (rest : List Action) :
    regHeldNet (List.replicate n Action.netSend ++ rest) r =
      ((decide (0 < n) && decide (0 < r)) || regHeldNet rest r) := by
  induction n with
  | zero => simp [List.replicate]
  | succ m ih =>
    rw [List.replicate_succ, List.cons_append]
    show (decide (0 < r) || regHeldNet (List.replicate m Action.netSend ++ rest) r) = _
    rw [ih]
    by_cases hr : 0 < r <;> simp [hr]

lemma hubHeldNet_replicate (n h : Nat) (rest : List Action) :
    hubHeldNet (List.replicate n Action.netSend ++ rest) h =
      ((decide (0 < n) && decide (0 < h)) || hubHeldNet rest h) := by
  induction n with
  | zero => simp [List.replicate]
  | succ m ih =>
    rw [List.replicate_succ, List.cons_append]
    show (decide (0 < h) || hubHeldNet (List.replicate m Action.netSend ++ rest) h) = _
    rw [ih]
    by_cases hh : 0 < h <;> simp [hh]

lemma bothHeld_replicate (n r h : Nat) (rest : List Action) :
    bothHeld (List.replicate n Action.netSend ++ rest) r h = bothHeld rest r h := by
  induction n with
  | zero => simp [List.replicate]
  | succ m ih =>
    rw [List.replicate_succ, List.cons_append]
    show bothHeld (List.replicate m Action.netSend ++ rest) r h = _
    rw [ih]

/-- Counterexample to claim C9 as stated: in the scheduler's condition
branch the Registry lock is held across the MQTT publish (even with no
observer connected), `WsHub.broadcast` holds the Hub lock across every
observer send, and during the condition branch's broadcast both locks
are held simultaneously across network sends. -/
theorem lock_across_network_counterexample :
    anyHeldNet (conditionFireTrace 0) = true ∧
    anyHeldNet (wsHubBroadcastTrace 1) = true ∧
    bothHeld (conditionFireTrace 1) 0 0 = true := by decide

/-- Claim C9 (amended): in the ingester, the manual-publish handler,
the execute handler, the subscription and rule-creation handlers and
the scheduler's interval branch, the Registry lock covers only the
in-memory mutation and is never held across a network call; but in the
scheduler's condition branch the Registry lock is held across the
publish and the broadcast (with both locks held simultaneously while
observers are sent to), and `WsHub.broadcast` holds the Hub lock
across its observer sends whenever at least one observer is
registered. -/
theorem lock_discipline (n : Nat) :
    regHeldNet (manualPublishTrace n) 0 = false ∧
    regHeldNet (executeCommandTrace n) 0 = false ∧
    regHeldNet (ingestTrace n) 0 = false ∧
    regHeldNet (intervalFireTrace n) 0 = false ∧
    regHeldNet (addSubscriptionTrace n) 0 = false ∧
    regHeldNet (createCommandTrace n) 0 = false ∧
    regHeldNet (conditionFireTrace n) 0 = true ∧
    hubHeldNet (wsHubBroadcastTrace (n + 1)) 0 = true ∧
    bothHeld (conditionFireTrace (n + 1)) 0 0 = true := by
  refine ⟨?_, ?_, ?_, ?_, ?_, ?_, ?_, ?_, ?_⟩ <;>
    simp [manualPublishTrace, executeCommandTrace, ingestTrace,
      intervalFireTrace, addSubscriptionTrace, createCommandTrace,
      conditionFireTrace, wsHubBroadcastTrace, regHeldNet, hubHeldNet,
      bothHeld, regHeldNet_replicate, hubHeldNet_replicate,
      bothHeld_replicate]

/-- Witness for the amended claim-C9 theorem at three observers. -/
theorem lock_discipline_witness :
    regHeldNet (manualPublishTrace 3) 0 = false ∧
    regHeldNet (conditionFireTrace 3) 0 = true :=
  ⟨(lock_discipline 3).1, (lock_discipline 3).2.2.2.2.2.2.1⟩

/-! ## Claim C7: counters never decrease -/

lemma countersLE_refl (a : DeviceStats) : countersLE a a :=
  ⟨le_refl _, le_refl _, le_refl _, le_refl _⟩

lemma countersLE_trans {a b c : DeviceStats}
    (h1 : countersLE a b) (h2 : countersLE b c) : countersLE a c :=
  ⟨h1.1.trans h2.1, h1.2.1.trans h2.2.1, h1.2.2.1.trans h2.2.2.1,
   h1.2.2.2.trans h2.2.2.2⟩

lemma monoReg_refl (st : RegistryState) : MonoReg st st :=
  fun _ s h => ⟨s, h, countersLE_refl s⟩

lemma monoReg_trans {a b c : RegistryState}
    (h1 : MonoReg a b) (h2 : MonoReg b c) : MonoReg a c := by
  intro id s hs
  obtain ⟨s1, hs1, hle1⟩ := h1 id s hs
  obtain ⟨s2, hs2, hle2⟩ := h2 id s1 hs1
  exact ⟨s2, hs2, countersLE_trans hle1 hle2⟩

lemma monoReg_of_devices_eq {a b : RegistryState} (h : a.devices = b.devices) :
    MonoReg a b := fun _ s hs => ⟨s, h ▸ hs, countersLE_refl s⟩

lemma monoReg_setDevice {st : RegistryState} {device_id : String}
    {dev dev' : DeviceStats}
    (hlk : alookup st.devices device_id = some dev)
    (hle : countersLE dev dev') :
    MonoReg st (setDevice st device_id dev') := by
  intro id s hs
  show ∃ s', alookup (aupdate st.devices device_id dev') id = some s' ∧ _
  by_cases hid : id = device_id
  · subst hid
    rw [hlk] at hs
    cases Option.some.inj hs
    exact ⟨dev', alookup_aupdate_self _ _ _, hle⟩
  · rw [alookup_aupdate_ne _ _ _ _ hid]
    exact ⟨s, hs, countersLE_refl s⟩

lemma monoReg_append_device (st : RegistryState) (device_id : String)
    (d : DeviceStats) :
    MonoReg st { st with devices := st.devices ++ [(device_id, d)] } := by
  intro id s hs
  refine ⟨s, ?_, countersLE_refl s⟩
  show alookup (st.devices ++ [(device_id, d)]) id = some s
  rw [alookup_append, hs]

lemma monoReg_record_sent (now : Int) (device_id payload : String)
    (st : RegistryState) :
    MonoReg st (record_sent now device_id payload st) := by
  unfold record_sent
  cases hlk : alookup st.devices device_id with
  | some dev =>
    have he : ensure_device st device_id = (st, dev) := by
      unfold ensure_device
      rw [hlk]
    rw [he]
    exact monoReg_setDevice hlk
      ⟨Nat.le_succ _, le_refl _, Nat.le_add_right _ _, le_refl _⟩
  | none =>
    have he : ensure_device st device_id =
        ({ st with devices :=
            st.devices ++ [(device_id, { device_id := device_id })] },
          { device_id := device_id }) := by
      unfold ensure_device
      rw [hlk]
    rw [he]
    have hlk2 : alookup ({ st with devices := st.devices ++
        [(device_id, ({ device_id := device_id } : DeviceStats))] }
          : RegistryState).devices device_id =
        some ({ device_id := device_id } : DeviceStats) := by
      show alookup (st.devices ++
        [(device_id, ({ device_id := device_id } : DeviceStats))]) device_id =
        some _
      rw [alookup_append, hlk]
      simp [alookup]
    exact monoReg_trans
      (monoReg_append_device st device_id { device_id := device_id })
      (monoReg_setDevice hlk2
        ⟨Nat.le_succ _, le_refl _, Nat.le_add_right _ _, le_refl _⟩)

lemma monoReg_ingest (now : Int) (topic payload : String) (nbytes : Nat)
    (st : RegistryState) :
    MonoReg st (ingest_message now topic payload nbytes st) := by
  unfold ingest_message
  show MonoReg st (match ensure_device st (device_from_topic topic) with
    | (st1, dev) => setDevice st1 (device_from_topic topic)
        { dev with
          connected := true
          last_seen := some now
          last_topic := some topic
          last_payload := some payload
          packets_received := dev.packets_received + 1
          bytes_received := dev.bytes_received + nbytes })
  cases hlk : alookup st.devices (device_from_topic topic) with
  | some dev =>
    have he : ensure_device st (device_from_topic topic) = (st, dev) := by
      unfold ensure_device
      rw [hlk]
    rw [he]
    exact monoReg_setDevice hlk
      ⟨le_refl _, Nat.le_succ _, le_refl _, Nat.le_add_right _ _⟩
  | none =>
    have he : ensure_device st (device_from_topic topic) =
        ({ st with devices := st.devices ++
            [(device_from_topic topic,
              { device_id := device_from_topic topic })] },
          { device_id := device_from_topic topic }) := by
      unfold ensure_device
      rw [hlk]
    rw [he]
    have hlk2 : alookup ({ st with devices := st.devices ++
        [(device_from_topic topic,
          ({ device_id := device_from_topic topic } : DeviceStats))] }
          : RegistryState).devices (device_from_topic topic) =
        some ({ device_id := device_from_topic topic } : DeviceStats) := by
      show alookup (st.devices ++
        [(device_from_topic topic,
          ({ device_id := device_from_topic topic } : DeviceStats))])
        (device_from_topic topic) = some _
      rw [alookup_append, hlk]
      simp [alookup]
    exact monoReg_trans
      (monoReg_append_device st (device_from_topic topic)
        { device_id := device_from_topic topic })
      (monoReg_setDevice hlk2
        ⟨le_refl _, Nat.le_succ _, le_refl _, Nat.le_add_right _ _⟩)

lemma intervalStep_mono (pubOk : String → Bool) (now : Int)
    (st : SchedState) (cmd : CommandDef) :
    MonoReg st.reg (exceptState (intervalStep pubOk now st cmd)).reg := by
  unfold intervalStep
  split
  · split
    · split
      · dsimp only [exceptState]
        exact monoReg_record_sent _ _ _ _
      · dsimp only [exceptState]
        exact monoReg_refl _
    · dsimp only [exceptState]
      exact monoReg_refl _
  · dsimp only [exceptState]
    exact monoReg_refl _

lemma conditionStep_mono (pubOk : String → Bool) (now : Int)
    (st : SchedState) (cmd : CommandDef) :
    MonoReg st.reg (exceptState (conditionStep pubOk now st cmd)).reg := by
  unfold conditionStep
  repeat' split
  all_goals dsimp only [exceptState]
  all_goals first
    | exact monoReg_refl _
    | exact monoReg_setDevice (by assumption)
        ⟨Nat.le_succ _, le_refl _, Nat.le_add_right _ _, le_refl _⟩

lemma processCmd_mono (pubOk : String → Bool) (now : Int)
    (st : SchedState) (cmd : CommandDef) :
    MonoReg st.reg (exceptState (processCmd pubOk now st cmd)).reg := by
  unfold processCmd
  split
  · exact monoReg_refl _
  · cases hI : intervalStep pubOk now st cmd with
    | error s =>
      have h1 := intervalStep_mono pubOk now st cmd
      rw [hI] at h1
      exact h1
    | ok s1 =>
      have h1 := intervalStep_mono pubOk now st cmd
      rw [hI] at h1
      dsimp only [exceptState] at h1
      show MonoReg st.reg (exceptState (conditionStep pubOk now s1 cmd)).reg
      exact monoReg_trans h1 (conditionStep_mono pubOk now s1 cmd)

lemma runTick_mono (pubOk : String → Bool) (now : Int) :
    ∀ (cmds : List CommandDef) (st : SchedState),
      MonoReg st.reg (exceptState (runTick pubOk now st cmds)).reg
  | [], _ => monoReg_refl _
  | c :: rest, st => by
    unfold runTick
    cases hP : processCmd pubOk now st c with
    | error s1 =>
      have h1 := processCmd_mono pubOk now st c
      rw [hP] at h1
      exact h1
    | ok s1 =>
      have h1 := processCmd_mono pubOk now st c
      rw [hP] at h1
      dsimp only [exceptState] at h1
      exact monoReg_trans h1 (runTick_mono pubOk now rest s1)

lemma applyOp_mono (st : RegistryState) (op : Op) : MonoReg st (applyOp st op) := by
  cases op with
  | ingest now topic payload nbytes => exact monoReg_ingest now topic payload nbytes st
  | manualPub pubOk now data =>
    show MonoReg st (manual_publish pubOk now data st).1
    unfold manual_publish
    split
    · exact monoReg_record_sent _ _ _ _
    · exact monoReg_refl _
  | execCmd pubOk now command_id =>
    show MonoReg st (execute_command pubOk now command_id st).1
    unfold execute_command
    repeat' split
    all_goals first
      | exact monoReg_refl _
      | exact monoReg_record_sent _ _ _ _
  | createCmd cmd =>
    show MonoReg st (create_command cmd st).1
    unfold create_command
    split
    · exact monoReg_refl _
    · exact monoReg_of_devices_eq rfl
  | addSub topic =>
    show MonoReg st (add_subscription topic st).1
    unfold add_subscription
    split
    · exact monoReg_refl _
    · exact monoReg_of_devices_eq rfl
  | tick pubOk now last_run =>
    have h := runTick_mono pubOk now
      (({ reg := st, last_run := last_run } : SchedState).reg.commands.map Prod.snd)
      { reg := st, last_run := last_run }
    show MonoReg st (match schedTick pubOk now { reg := st, last_run := last_run } with
      | Except.ok s => s.reg
      | Except.error s => s.reg)
    cases hT : schedTick pubOk now { reg := st, last_run := last_run } with
    | ok s =>
      unfold schedTick at hT
      rw [hT] at h
      exact h
    | error s =>
      unfold schedTick at hT
      rw [hT] at h
      exact h

lemma applyOps_mono (ops : List Op) (st : RegistryState) :
    MonoReg st (applyOps st ops) := by
  induction ops generalizing st with
  | nil => exact monoReg_refl st
  | cons op rest ih =>
    exact monoReg_trans (applyOp_mono st op) (ih (applyOp st op))

/-- Claim C7: across any sequence of backend operations (telemetry
ingestion, manual publish, rule execution, rule creation, subscription
addition, scheduler ticks — aborted or not), every device present in
the registry stays present and its four packet/byte counters never
decrease. -/
theorem counters_never_decrease (ops : List Op) (st : RegistryState)
    (id : String) (s : DeviceStats)
    (h : alookup st.devices id = some s) :
    ∃ s', alookup (applyOps st ops).devices id = some s' ∧ countersLE s s' :=
  applyOps_mono ops st id s h

/-- Witness for the claim-C7 theorem: ingestion plus a manual publish
on a concrete registry. -/
theorem counters_never_decrease_witness :
    ∃ s', alookup (applyOps { devices := [("dev1", devHot)] }
        [Op.ingest 55 "sensors/dev1/temp" "22" 2,
         Op.manualPub (fun _ => true) 56
           { device_id := "dev1", topic := "t", payload := "xy" }]).devices
      "dev1" = some s' ∧ countersLE devHot s' :=
  counters_never_decrease _ _ "dev1" devHot rfl

end StressMqtt
